import Mathlib

/-
Shallow embedding of the Seastar metrics declaration layer
(src/core/metrics.hh, namespaces seastar::metrics and seastar::metrics::impl).

Modelling conventions:
- sstring is modelled as String.
- The C++ anonymous union over {double, uint64_t, int64_t} becomes the sum
  type metric_union; a double member is modelled by the exact rational
  value of the stored IEEE-754 binary64 number, and the integral-to-double
  conversion performed by u._d = i rounds the integer to the nearest
  binary64 value, ties to even (double_of_int); uint64_t is Nat reduced
  mod 2^64, int64_t is Int wrapped into [-2^63, 2^63).
- Mutable producer state read by a by-reference accessor is passed
  explicitly: an accessor is a function from the current value of the
  backing variable (an Int standing for the machine-integer contents)
  to a metric_value, so a mutation of the backing variable is a change of
  the argument between two invocations.
- Function bodies that the header only declares (metric_value::operator+,
  metric_definition_impl::metric_definition_impl, label_instance::operator<
  and operator==, impl::shard) live in a source file that is not part of
  the repository snapshot; they are modelled from the spec and marked
  "Modelled from the spec" in their doc comments.
-/

namespace SeastarMetrics

/-- The value binding data types of impl::data_type (metrics.hh lines
244-249): COUNTER (unsigned int 64), GAUGE (double), DERIVE (signed int
64), ABSOLUTE (unsigned int 64). -/
inductive data_type where
  | COUNTER
  | GAUGE
  | DERIVE
  | ABSOLUTE
  deriving DecidableEq

/-- The anonymous union inside impl::metric_value (lines 257-261): exactly
one of a double member u_d, an unsigned 64-bit member u_ui, or a signed
64-bit member u_i is stored. -/
inductive metric_union where
  | u_d : Rat → metric_union
  | u_ui : Nat → metric_union
  | u_i : Int → metric_union
  deriving DecidableEq

/-- impl::metric_value (lines 256-308): a payload union u plus the tag
field named _type in the source, modelled as the field tag. -/
structure metric_value where
  u : metric_union
  tag : data_type
  deriving DecidableEq

/-- Round a natural number to a multiple of unit, to nearest, ties to the
even multiple. -/
def round_to_multiple (unit n : Nat) : Nat :=
  let q := n / unit
  let r := n % unit
  if 2 * r < unit then q * unit
  else if unit < 2 * r then (q + 1) * unit
  else (if q % 2 = 0 then q else q + 1) * unit

/-- The IEEE-754 binary64 value nearest a natural number, rounding to
nearest with ties to even: magnitudes up to 2^53 are represented exactly;
a larger n lying in [2^k, 2^(k+1)) is rounded to a multiple of the unit
in the last place 2^(k-52) of that binade. Every 64-bit integer is far
below the binary64 overflow threshold, so the result is always finite. -/
def double_of_nat (n : Nat) : Nat :=
  if n ≤ 2 ^ 53 then n
  else round_to_multiple (2 ^ (n.log2 - 52)) n

/-- The binary64 value nearest an integer (round to nearest, ties to
even): the rounding of the magnitude, carrying the sign. This is the
value a double member holds after the C++ integral conversion
u._d = i (metrics.hh line 292). -/
def double_of_int (x : Int) : Int :=
  if x < 0 then -(double_of_nat x.natAbs : Int) else (double_of_nat x.natAbs : Int)

/-- Wrap an integer into the signed 64-bit range [-2^63, 2^63), the value
an int64_t member holds after a C++ integral conversion. -/
def int64_of_int (x : Int) : Int :=
  (x + 2 ^ 63) % 2 ^ 64 - 2 ^ 63

/-- Reduce an integer into the unsigned 64-bit range [0, 2^64), the value a
uint64_t member holds after a C++ integral conversion. -/
def uint64_of_int (x : Int) : Nat :=
  (x % (2 ^ 64 : Int)).toNat

/-- Accessor type() of metric_value (lines 264-266). -/
def metric_value.type (v : metric_value) : data_type :=
  v.tag

/-- Typed reader d() of metric_value (lines 268-270): reads the double
union member. Reading a member other than the one stored is an unchecked
reinterpretation in the source; the model returns 0 in that case, and no
verified property depends on such a read. -/
def metric_value.d (v : metric_value) : Rat :=
  match v.u with
  | .u_d x => x
  | _ => 0

/-- Typed reader ui() of metric_value (lines 272-274): reads the unsigned
64-bit union member (0 when another member is stored, see d). -/
def metric_value.ui (v : metric_value) : Nat :=
  match v.u with
  | .u_ui x => x
  | _ => 0

/-- Typed reader i() of metric_value (lines 276-278): reads the signed
64-bit union member (0 when another member is stored, see d). -/
def metric_value.i (v : metric_value) : Int :=
  match v.u with
  | .u_i x => x
  | _ => 0

/-- The default constructor metric_value() (lines 280-282): it sets
_type to GAUGE and leaves the union uninitialized, so the model takes the
arbitrary uninitialized contents as an argument. -/
def metric_value.default_ctor (junk : metric_union) : metric_value :=
  ⟨junk, .GAUGE⟩

/-- The constructor metric_value(T i, data_type t) (lines 284-298): the
switch on the tag stores the raw input into the union member the tag
selects (u_i for DERIVE, u_d for GAUGE, u_ui for COUNTER and ABSOLUTE).
The raw input is modelled as an Int; the C++ integral conversions to the
member types are int64_of_int, the rounding conversion double_of_int to
the nearest binary64 value, and uint64_of_int respectively. -/
def metric_value.of_raw (x : Int) (t : data_type) : metric_value :=
  ⟨match t with
    | .DERIVE => .u_i (int64_of_int x)
    | .GAUGE => .u_d (double_of_int x : Rat)
    | _ => .u_ui (uint64_of_int x), t⟩

/-- The error kinds of the spec (section 7) that this layer itself
reports: InvalidDefinition at construction, TypeMismatch at combination. -/
inductive metrics_error where
  | TypeMismatch
  | InvalidDefinition
  deriving DecidableEq

/-- Modelled from the spec: metric_value::operator+ is only declared in
the header (line 307); its body is outside the repository snapshot. The
spec (section 4.2) defines combine(a, b) only when the tags are equal,
with the result carrying the same tag and the arithmetic sum of the typed
payloads (double addition for GAUGE, 64-bit signed addition for DERIVE,
64-bit unsigned addition for COUNTER and ABSOLUTE), and mandates a
reported TypeMismatch error when the tags differ. -/
def metric_value.combine (a c : metric_value) : Except metrics_error metric_value :=
  if a.tag = c.tag then
    .ok (match a.tag with
      | .GAUGE => ⟨.u_d (a.d + c.d), .GAUGE⟩
      | .DERIVE => ⟨.u_i (int64_of_int (a.i + c.i)), .DERIVE⟩
      | .COUNTER => ⟨.u_ui ((a.ui + c.ui) % 2 ^ 64), .COUNTER⟩
      | .ABSOLUTE => ⟨.u_ui ((a.ui + c.ui) % 2 ^ 64), .ABSOLUTE⟩)
  else .error .TypeMismatch

/-- label_instance (lines 142-177): an immutable key and value pair of
strings. -/
structure label_instance where
  key : String
  value : String
  deriving DecidableEq

/-- The supported inputs of the label value conversion
(boost::lexical_cast to std::string, line 159): numeric, boolean and text
values. -/
inductive label_value where
  | of_int : Int → label_value
  | of_nat : Nat → label_value
  | of_bool : Bool → label_value
  | of_string : String → label_value
  deriving DecidableEq

/-- Modelled from the spec: the string conversion applied by the
label_instance constructor (boost::lexical_cast<std::string>, an external
library call). The spec (section 4.1) requires it to be total,
deterministic and locale independent over numeric, boolean and text
inputs; it is modelled as decimal rendering of integers, 1 and 0
for booleans, and identity on text. -/
def lexical_cast : label_value → String
  | .of_int x => toString x
  | .of_nat n => toString n
  | .of_bool b => if b then "1" else "0"
  | .of_string s => s

/-- The label_instance constructor (line 159): stores the key and the
lexical_cast of the supplied value. -/
def label_instance.mk_of (key : String) (v : label_value) : label_instance :=
  ⟨key, lexical_cast v⟩

/-- Modelled from the spec: label_instance::operator== is only declared in
the header (line 175). The spec (section 8) makes equality hold exactly on
equal (key, value-string) pairs. -/
def label_instance.eq_op (a b : label_instance) : Bool :=
  a.key == b.key && a.value == b.value

/-- Modelled from the spec: label_instance::operator< is only declared in
the header (line 174). The spec (sections 3 and 8) orders label instances
lexicographically on the (key, value) pair. -/
def label_instance.lt_op (a b : label_instance) : Bool :=
  decide (a.key < b.key) || (a.key == b.key && decide (a.value < b.value))

/-- impl::metric_type (lines 312-315): the base semantic type together
with the flavor string type_name. -/
structure metric_type where
  base_type : data_type
  type_name : String

/-- description (lines 114-123): a wrapper over one string. -/
structure description where
  s : String

/-- impl::metric_function (line 310): a zero-argument snapshot operation.
Its access to mutable producer state is made explicit: the argument is
the current value of the backing variable at invocation time. -/
abbrev metric_function := Int → metric_value

/-- The value source handed to a factory: either the backing variable
itself (the non-callable overload of impl::make_function, which captures
a reference) or a zero-argument callable (the callable overload, which
captures it by value). A callable is modelled as a function of the
current producer state. -/
inductive value_source where
  | by_ref : value_source
  | by_fun : (Int → Int) → value_source

/-- impl::make_function (lines 349-372): the two overloads, selected
once at construction by the is_callable trait. The callable overload
wraps each call result with metric_value(val(), dt); the reference
overload re-reads the variable and wraps it with metric_value(val, dt). -/
def make_function (src : value_source) (dt : data_type) : metric_function :=
  match src with
  | .by_fun f => fun st => metric_value.of_raw (f st) dt
  | .by_ref => fun st => metric_value.of_raw st dt

/-- Two successive invocations of one accessor: the first while the
backing variable holds v1, the second after it was mutated to v2. -/
def invoke_twice (acc : metric_function) (v1 v2 : Int) : metric_value × metric_value :=
  (acc v1, acc v2)

/-- The set of backing values on which the conversion selected by a tag
is lossless, so that distinct backing values yield distinct snapshots:
for GAUGE the integer range [-2^53, 2^53] a binary64 double represents
exactly (beyond it the int-to-double conversion of u._d = i collapses
neighbouring integers), the signed 64-bit range for DERIVE, the unsigned
64-bit range for COUNTER and ABSOLUTE. -/
def data_type.in_range : data_type → Int → Prop
  | .GAUGE, x => -(2 ^ 53) ≤ x ∧ x ≤ 2 ^ 53
  | .DERIVE, x => -(2 ^ 63) ≤ x ∧ x < 2 ^ 63
  | .COUNTER, x => 0 ≤ x ∧ x < 2 ^ 64
  | .ABSOLUTE, x => 0 ≤ x ∧ x < 2 ^ 64

instance (t : data_type) (x : Int) : Decidable (t.in_range x) := by
  cases t <;> simp [data_type.in_range] <;> infer_instance

/-- impl::metric_definition_impl (lines 317-334): name, instance id,
type descriptor, accessor, description, enabled flag and the label map. -/
structure metric_definition_impl where
  name : String
  id : String
  type : metric_type
  f : metric_function
  d : description
  enabled : Bool
  labels : List (String × String)

/-- Insertion into the label map ordered by key, the std::map behaviour
of keeping keys unique (a later value for an existing key replaces the
stored one). -/
def labels_upsert : List (String × String) → String → String → List (String × String)
  | [], k, v => [(k, v)]
  | (k0, v0) :: rest, k, v =>
    if k < k0 then (k, v) :: (k0, v0) :: rest
    else if k = k0 then (k, v) :: rest
    else (k0, v0) :: labels_upsert rest k v

/-- Conversion of the label_instance vector into the std::map of the
definition record: key-unique, ordered by key. -/
def labels_to_map (ls : List label_instance) : List (String × String) :=
  ls.foldl (fun m li => labels_upsert m li.key li.value) []

/-- Modelled from the spec: the metric_definition_impl constructor is only
declared in the header (lines 326-333); its body is outside the repository
snapshot. The spec (sections 4.4 and 7) requires construction with an
empty or malformed name to fail immediately with InvalidDefinition (the
empty name is the malformed-identity condition the spec names), and
otherwise produces the immutable record, with the label list turned into
the key-unique label map. -/
def metric_definition_impl.make (name : String) (id : String) (ty : metric_type)
    (f : metric_function) (d : description) (enabled : Bool)
    (labels : List label_instance) : Except metrics_error metric_definition_impl :=
  if name.isEmpty then .error .InvalidDefinition
  else .ok ⟨name, id, ty, f, d, enabled, labels_to_map labels⟩

/-- make_gauge (lines 390-395) with every argument explicit: base type
GAUGE, flavor iht, accessor built by make_function at the GAUGE tag. -/
def make_gauge (name : String) (val : value_source) (d : description)
    (labels : List label_instance) (enabled : Bool) (inst : String)
    (iht : String) : Except metrics_error metric_definition_impl :=
  metric_definition_impl.make name inst ⟨.GAUGE, iht⟩
    (make_function val .GAUGE) d enabled labels

/-- make_derive (lines 405-410) with every argument explicit: base type
DERIVE, flavor iht, accessor built by make_function at the DERIVE tag. -/
def make_derive (name : String) (val : value_source) (d : description)
    (labels : List label_instance) (enabled : Bool) (inst : String)
    (iht : String) : Except metrics_error metric_definition_impl :=
  metric_definition_impl.make name inst ⟨.DERIVE, iht⟩
    (make_function val .DERIVE) d enabled labels

/-- make_counter (lines 419-424) with every argument explicit: base type
COUNTER, flavor iht, accessor built by make_function at the COUNTER tag. -/
def make_counter (name : String) (val : value_source) (d : description)
    (labels : List label_instance) (enabled : Bool) (inst : String)
    (iht : String) : Except metrics_error metric_definition_impl :=
  metric_definition_impl.make name inst ⟨.COUNTER, iht⟩
    (make_function val .COUNTER) d enabled labels

/-- make_absolute (lines 432-437) with every argument explicit: base type
ABSOLUTE, flavor iht, accessor built by make_function at the ABSOLUTE
tag. -/
def make_absolute (name : String) (val : value_source) (d : description)
    (labels : List label_instance) (enabled : Bool) (inst : String)
    (iht : String) : Except metrics_error metric_definition_impl :=
  metric_definition_impl.make name inst ⟨.ABSOLUTE, iht⟩
    (make_function val .ABSOLUTE) d enabled labels

/-- make_gauge with the optional arguments left at their defaults
(line 392-393): description(), empty label list, enabled true, instance
impl::shard(), flavor "gauge". The ambient impl::shard() value (declared
at line 347, defined outside the snapshot) is threaded in as cur_shard. -/
def make_gauge_dflt (cur_shard : String) (name : String)
    (val : value_source) : Except metrics_error metric_definition_impl :=
  make_gauge name val ⟨""⟩ [] true cur_shard "gauge"

/-- make_derive with the optional arguments left at their defaults
(lines 407-408): flavor "derive", otherwise as make_gauge_dflt. -/
def make_derive_dflt (cur_shard : String) (name : String)
    (val : value_source) : Except metrics_error metric_definition_impl :=
  make_derive name val ⟨""⟩ [] true cur_shard "derive"

/-- make_counter with the optional arguments left at their defaults
(lines 421-422): flavor "counter", otherwise as make_gauge_dflt. -/
def make_counter_dflt (cur_shard : String) (name : String)
    (val : value_source) : Except metrics_error metric_definition_impl :=
  make_counter name val ⟨""⟩ [] true cur_shard "counter"

/-- make_absolute with the optional arguments left at their defaults
(lines 434-435): flavor "absolute", otherwise as make_gauge_dflt. -/
def make_absolute_dflt (cur_shard : String) (name : String)
    (val : value_source) : Except metrics_error metric_definition_impl :=
  make_absolute name val ⟨""⟩ [] true cur_shard "absolute"

/-- make_total_bytes (lines 446-451): forwards to make_derive with the
fixed flavor "total_bytes". Its enabled parameter comes before its label
list, the reverse of every other factory, and the forwarding swaps them
back into make_derive order. -/
def make_total_bytes (name : String) (val : value_source) (d : description)
    (enabled : Bool) (labels : List label_instance)
    (inst : String) : Except metrics_error metric_definition_impl :=
  make_derive name val d labels enabled inst "total_bytes"

/-- make_current_bytes (lines 460-465): forwards to make_derive with the
fixed flavor "bytes". -/
def make_current_bytes (name : String) (val : value_source) (d : description)
    (labels : List label_instance) (enabled : Bool)
    (inst : String) : Except metrics_error metric_definition_impl :=
  make_derive name val d labels enabled inst "bytes"

/-- make_queue_length (lines 474-479): forwards to make_gauge with the
fixed flavor "queue_length". -/
def make_queue_length (name : String) (val : value_source) (d : description)
    (labels : List label_instance) (enabled : Bool)
    (inst : String) : Except metrics_error metric_definition_impl :=
  make_gauge name val d labels enabled inst "queue_length"

/-- make_total_operations (lines 488-493): forwards to make_derive with
the fixed flavor "total_operations". -/
def make_total_operations (name : String) (val : value_source) (d : description)
    (labels : List label_instance) (enabled : Bool)
    (inst : String) : Except metrics_error metric_definition_impl :=
  make_derive name val d labels enabled inst "total_operations"

/-- The base type of a construction result, none when construction
failed. -/
def base_of (e : Except metrics_error metric_definition_impl) : Option data_type :=
  match e with
  | .ok m => some m.type.base_type
  | .error _ => none

/-- The flavor string of a construction result, none when construction
failed. -/
def flavor_of (e : Except metrics_error metric_definition_impl) : Option String :=
  match e with
  | .ok m => some m.type.type_name
  | .error _ => none

/-- The enabled flag of a construction result, none when construction
failed. -/
def enabled_of (e : Except metrics_error metric_definition_impl) : Option Bool :=
  match e with
  | .ok m => some m.enabled
  | .error _ => none

/-- The instance id of a construction result, none when construction
failed. -/
def id_of (e : Except metrics_error metric_definition_impl) : Option String :=
  match e with
  | .ok m => some m.id
  | .error _ => none

/-- Which union member a metric_union holds. -/
inductive stored_member where
  | double_member
  | uint64_member
  | int64_member
  deriving DecidableEq

/-- The member actually stored in a union value. -/
def metric_union.member : metric_union → stored_member
  | .u_d _ => .double_member
  | .u_ui _ => .uint64_member
  | .u_i _ => .int64_member

/-- The union member a tag selects: double for GAUGE, signed 64-bit for
DERIVE, unsigned 64-bit for COUNTER and ABSOLUTE (comments at lines
244-249). -/
def data_type.selected_member : data_type → stored_member
  | .GAUGE => .double_member
  | .DERIVE => .int64_member
  | .COUNTER => .uint64_member
  | .ABSOLUTE => .uint64_member

/-- The stored payload fits the width of its machine representation. -/
def metric_union.in_width : metric_union → Prop
  | .u_d _ => True
  | .u_ui n => n < 2 ^ 64
  | .u_i x => -(2 ^ 63) ≤ x ∧ x < 2 ^ 63

theorem double_of_nat_eq_self (n : Nat) (h : n ≤ 2 ^ 53) :
    double_of_nat n = n := by
  unfold double_of_nat
  rw [if_pos h]

theorem double_of_int_eq_self (x : Int) (h1 : -(2 ^ 53) ≤ x) (h2 : x ≤ 2 ^ 53) :
    double_of_int x = x := by
  unfold double_of_int
  by_cases hx : x < 0
  · rw [if_pos hx, double_of_nat_eq_self x.natAbs (by omega)]
    omega
  · rw [if_neg hx, double_of_nat_eq_self x.natAbs (by omega)]
    omega

theorem int64_of_int_bounds (x : Int) :
    -(2 ^ 63) ≤ int64_of_int x ∧ int64_of_int x < 2 ^ 63 := by
  unfold int64_of_int
  omega

theorem int64_of_int_eq_self (x : Int) (h1 : -(2 ^ 63) ≤ x) (h2 : x < 2 ^ 63) :
    int64_of_int x = x := by
  unfold int64_of_int
  omega

theorem uint64_of_int_lt (x : Int) : uint64_of_int x < 2 ^ 64 := by
  unfold uint64_of_int
  omega

theorem uint64_of_int_eq_self (x : Int) (h1 : 0 ≤ x) (h2 : x < 2 ^ 64) :
    (uint64_of_int x : Int) = x := by
  unfold uint64_of_int
  omega

/-- Claim C1: for every two metric values a and b whose tags differ,
combine(a, b) reports a TypeMismatch error and never returns a value. -/
theorem combine_tag_mismatch_reports_type_mismatch (a c : metric_value)
    (h : a.tag ≠ c.tag) :
    a.combine c = .error .TypeMismatch := by
  simp [metric_value.combine, h]

theorem combine_tag_mismatch_reports_type_mismatch_witness :
    (metric_value.of_raw 1 .GAUGE).tag ≠ (metric_value.of_raw 1 .COUNTER).tag ∧
    (metric_value.of_raw 1 .GAUGE).combine (metric_value.of_raw 1 .COUNTER) =
      .error .TypeMismatch :=
  ⟨by decide, combine_tag_mismatch_reports_type_mismatch _ _ (by decide)⟩

/-- Claim C2: for every two metric values a and b carrying the same tag,
combine(a, b) returns a value of that same tag whose payload equals the
arithmetic sum of the typed payloads: double addition for GAUGE, 64-bit
unsigned addition for COUNTER and ABSOLUTE, 64-bit signed addition for
DERIVE. -/
theorem combine_same_tag_sums_payloads (a c : metric_value)
    (h : a.tag = c.tag) :
    ∃ v, a.combine c = .ok v ∧ v.tag = a.tag ∧
      (a.tag = .GAUGE → v.d = a.d + c.d) ∧
      (a.tag = .DERIVE → v.i = int64_of_int (a.i + c.i)) ∧
      (a.tag = .COUNTER ∨ a.tag = .ABSOLUTE →
        v.ui = (a.ui + c.ui) % 2 ^ 64) := by
  cases ht : a.tag with
  | GAUGE =>
    have hc : c.tag = data_type.GAUGE := h ▸ ht
    exact ⟨⟨.u_d (a.d + c.d), .GAUGE⟩, by simp [metric_value.combine, ht, hc],
      rfl, fun _ => rfl, fun hx => absurd hx (by decide),
      fun hx => absurd hx (by decide)⟩
  | DERIVE =>
    have hc : c.tag = data_type.DERIVE := h ▸ ht
    exact ⟨⟨.u_i (int64_of_int (a.i + c.i)), .DERIVE⟩,
      by simp [metric_value.combine, ht, hc], rfl,
      fun hx => absurd hx (by decide), fun _ => rfl,
      fun hx => absurd hx (by decide)⟩
  | COUNTER =>
    have hc : c.tag = data_type.COUNTER := h ▸ ht
    exact ⟨⟨.u_ui ((a.ui + c.ui) % 2 ^ 64), .COUNTER⟩,
      by simp [metric_value.combine, ht, hc], rfl,
      fun hx => absurd hx (by decide), fun hx => absurd hx (by decide),
      fun _ => rfl⟩
  | ABSOLUTE =>
    have hc : c.tag = data_type.ABSOLUTE := h ▸ ht
    exact ⟨⟨.u_ui ((a.ui + c.ui) % 2 ^ 64), .ABSOLUTE⟩,
      by simp [metric_value.combine, ht, hc], rfl,
      fun hx => absurd hx (by decide), fun hx => absurd hx (by decide),
      fun _ => rfl⟩

theorem combine_same_tag_sums_payloads_witness :
    ∃ v, (metric_value.of_raw 3 .COUNTER).combine (metric_value.of_raw 4 .COUNTER) =
        .ok v ∧ v.ui = 7 := by
  obtain ⟨v, hv, htag, hg, hd, hu⟩ :=
    combine_same_tag_sums_payloads (metric_value.of_raw 3 .COUNTER)
      (metric_value.of_raw 4 .COUNTER) rfl
  refine ⟨v, hv, ?_⟩
  rw [hu (Or.inl rfl)]
  rfl

/-- Claim C5: the constructor metric_value(raw, tag) stores the payload
in the representation the tag selects (double for GAUGE, unsigned 64-bit
for COUNTER and ABSOLUTE, signed 64-bit for DERIVE), and type()
afterwards returns that tag. -/
theorem of_raw_stores_tagged_representation (x : Int) (t : data_type) :
    (metric_value.of_raw x t).type = t ∧
    (metric_value.of_raw x t).u.member = t.selected_member ∧
    (metric_value.of_raw x t).u.in_width := by
  refine ⟨rfl, ?_, ?_⟩
  · cases t <;> rfl
  · cases t
    · exact uint64_of_int_lt x
    · trivial
    · exact int64_of_int_bounds x
    · exact uint64_of_int_lt x

/-- Claim C9: a default-constructed metric_value carries the GAUGE tag,
whatever uninitialized contents the union holds, so type() on it returns
GAUGE. -/
theorem default_ctor_carries_gauge_tag (junk : metric_union) :
    (metric_value.default_ctor junk).type = .GAUGE :=
  rfl

theorem of_raw_injective_in_range (dt : data_type) (v1 v2 : Int)
    (h1 : dt.in_range v1) (h2 : dt.in_range v2) (hne : v1 ≠ v2) :
    metric_value.of_raw v1 dt ≠ metric_value.of_raw v2 dt := by
  intro heq
  cases dt with
  | GAUGE =>
    have hrat : (double_of_int v1 : Rat) = (double_of_int v2 : Rat) := by
      simpa [metric_value.of_raw] using heq
    have hint : double_of_int v1 = double_of_int v2 := by exact_mod_cast hrat
    rw [double_of_int_eq_self v1 h1.1 h1.2,
      double_of_int_eq_self v2 h2.1 h2.2] at hint
    exact hne hint
  | DERIVE =>
    have : int64_of_int v1 = int64_of_int v2 := by
      simpa [metric_value.of_raw] using heq
    rw [int64_of_int_eq_self v1 h1.1 h1.2, int64_of_int_eq_self v2 h2.1 h2.2] at this
    exact hne this
  | COUNTER =>
    have : uint64_of_int v1 = uint64_of_int v2 := by
      simpa [metric_value.of_raw] using heq
    have h1e := uint64_of_int_eq_self v1 h1.1 h1.2
    have h2e := uint64_of_int_eq_self v2 h2.1 h2.2
    exact hne (by omega)
  | ABSOLUTE =>
    have : uint64_of_int v1 = uint64_of_int v2 := by
      simpa [metric_value.of_raw] using heq
    have h1e := uint64_of_int_eq_self v1 h1.1 h1.2
    have h2e := uint64_of_int_eq_self v2 h2.1 h2.2
    exact hne (by omega)

/-- Claim C3: over a backing variable holding v and over a zero-argument
function returning the current value of that variable, the built
accessors yield the same metric value, namely the value of v wrapped
with the declared base type; after the variable is mutated from v1 to
v2, the first invocation result of the by-reference accessor is still
determined by v1 alone, while the second invocation result differs from
it, for backing values within the range the declared representation
stores losslessly (beyond 2^53 the int-to-double conversion of a GAUGE
collapses neighbouring integers, so no such distinctness holds there). -/
theorem accessor_builder_snapshots (dt : data_type) (f : Int → Int)
    (v1 v2 : Int) (hf : ∀ s, f s = s) (h1 : dt.in_range v1)
    (h2 : dt.in_range v2) (hne : v1 ≠ v2) :
    make_function (.by_fun f) dt v1 = make_function .by_ref dt v1 ∧
    (make_function .by_ref dt v1).type = dt ∧
    invoke_twice (make_function .by_ref dt) v1 v2 =
      (metric_value.of_raw v1 dt, metric_value.of_raw v2 dt) ∧
    (invoke_twice (make_function .by_ref dt) v1 v2).2 ≠
      (invoke_twice (make_function .by_ref dt) v1 v2).1 := by
  refine ⟨by simp [make_function, hf], rfl, rfl, ?_⟩
  exact of_raw_injective_in_range dt v2 v1 h2 h1 (Ne.symm hne)

theorem accessor_builder_snapshots_witness :
    make_function (.by_fun fun s => s) .DERIVE 5 = make_function .by_ref .DERIVE 5 ∧
    (invoke_twice (make_function .by_ref .DERIVE) 5 6).2 ≠
      (invoke_twice (make_function .by_ref .DERIVE) 5 6).1 := by
  have h := accessor_builder_snapshots .DERIVE (fun s => s) 5 6 (fun _ => rfl)
    (by constructor <;> norm_num) (by constructor <;> norm_num) (by norm_num)
  exact ⟨h.1, h.2.2.2⟩

theorem double_of_int_ofNat (n : Nat) :
    double_of_int (n : Int) = (double_of_nat n : Int) := by
  unfold double_of_int
  rw [if_neg (by omega), Int.natAbs_ofNat]

/-- Claim C3 counterexample: the claim as stated fails on the code for a
GAUGE metric over a backing value beyond double precision. Mutating the
backing variable from 2^60 to 2^60 + 1 between the two invocations of
the by-reference accessor leaves the second snapshot equal to the first:
the int-to-double store u._d = i rounds both values to the same binary64
number 2^60. -/
theorem mutation_beyond_double_precision_invisible :
    (2 ^ 60 : Int) ≠ 2 ^ 60 + 1 ∧
    (invoke_twice (make_function .by_ref .GAUGE) (2 ^ 60) (2 ^ 60 + 1)).2 =
      (invoke_twice (make_function .by_ref .GAUGE) (2 ^ 60) (2 ^ 60 + 1)).1 := by
  have hl1 : (2 ^ 60 + 1 : Nat).log2 = 60 := by
    rw [Nat.log2_eq_log_two]
    exact Nat.log_eq_of_pow_le_of_lt_pow (by norm_num) (by norm_num)
  have hl0 : (2 ^ 60 : Nat).log2 = 60 := by
    rw [Nat.log2_eq_log_two]
    exact Nat.log_pow (by norm_num) 60
  have h2 : double_of_nat (2 ^ 60 + 1) = 2 ^ 60 := by
    unfold double_of_nat
    rw [if_neg (by norm_num), hl1]
    norm_num [round_to_multiple]
  have h3 : double_of_nat (2 ^ 60) = 2 ^ 60 := by
    unfold double_of_nat
    rw [if_neg (by norm_num), hl0]
    norm_num [round_to_multiple]
  have ha : ((2 ^ 60 + 1 : Nat) : Int) = 2 ^ 60 + 1 := by push_cast
  have hb : ((2 ^ 60 : Nat) : Int) = 2 ^ 60 := by push_cast
  have h1 : double_of_int (2 ^ 60 + 1 : Int) = double_of_int (2 ^ 60 : Int) := by
    rw [← ha, ← hb, double_of_int_ofNat, double_of_int_ofNat, h2, h3]
  refine ⟨by norm_num, ?_⟩
  show metric_value.of_raw (2 ^ 60 + 1) .GAUGE = metric_value.of_raw (2 ^ 60) .GAUGE
  simp only [metric_value.of_raw, h1]

/-- Claim C6: construction of a metric definition with an empty name
(the unusable-identity condition) fails immediately with
InvalidDefinition, and every successfully produced definition carries a
nonempty name. -/
theorem make_definition_rejects_empty_name (name id : String)
    (ty : metric_type) (f : metric_function) (d : description)
    (enabled : Bool) (labels : List label_instance) :
    (name = "" →
      metric_definition_impl.make name id ty f d enabled labels =
        .error .InvalidDefinition) ∧
    ∀ m, metric_definition_impl.make name id ty f d enabled labels = .ok m →
      m.name ≠ "" ∧ m.name = name := by
  constructor
  · intro h
    subst h
    rfl
  · intro m hm
    by_cases he : name.isEmpty
    · simp [metric_definition_impl.make, he] at hm
    · simp [metric_definition_impl.make, he] at hm
      have hne : name ≠ "" := fun h => he (String.isEmpty_iff name |>.mpr h)
      exact ⟨hm ▸ hne, hm ▸ rfl⟩

theorem make_definition_rejects_empty_name_witness :
    metric_definition_impl.make "" "0" ⟨.GAUGE, "gauge"⟩
      (make_function .by_ref .GAUGE) ⟨""⟩ true [] =
      .error .InvalidDefinition :=
  (make_definition_rejects_empty_name "" "0" ⟨.GAUGE, "gauge"⟩
    (make_function .by_ref .GAUGE) ⟨""⟩ true []).1 rfl

/-- Claim C7: label instance equality holds exactly on equal
(key, value-string) pairs, the ordering is lexicographic on the
(key, value) pair, and the string conversion of label values is a total
function that maps equal inputs to equal strings. -/
theorem label_instance_equality_and_order (a b : label_instance) :
    (label_instance.eq_op a b = true ↔ a.key = b.key ∧ a.value = b.value) ∧
    (label_instance.lt_op a b = true ↔
      (a.key < b.key ∨ (a.key = b.key ∧ a.value < b.value))) ∧
    ∀ v w : label_value, v = w → lexical_cast v = lexical_cast w := by
  refine ⟨?_, ?_, fun v w h => congrArg lexical_cast h⟩
  · simp [label_instance.eq_op]
  · simp [label_instance.lt_op]

theorem label_instance_equality_and_order_witness :
    label_instance.eq_op ⟨"smp_queue", "1"⟩ ⟨"smp_queue", "1"⟩ = true ∧
    lexical_cast (.of_int 7) = lexical_cast (.of_int 7) :=
  ⟨(label_instance_equality_and_order ⟨"smp_queue", "1"⟩
      ⟨"smp_queue", "1"⟩).1.mpr ⟨rfl, rfl⟩,
    (label_instance_equality_and_order ⟨"smp_queue", "1"⟩
      ⟨"smp_queue", "1"⟩).2.2 (.of_int 7) (.of_int 7) rfl⟩

/-- Claim C4: make_queue_length always yields base type GAUGE and
make_total_bytes, make_current_bytes and make_total_operations always
yield base type DERIVE; each convenience factory is exactly a forwarding
to one base factory with a fixed flavor string, with no parameter through
which the caller could change the base type. -/
theorem convenience_factories_fix_base_type (n : String) (v : value_source)
    (d : description) (l : List label_instance) (e : Bool) (i : String) :
    make_queue_length n v d l e i = make_gauge n v d l e i "queue_length" ∧
    make_total_bytes n v d e l i = make_derive n v d l e i "total_bytes" ∧
    make_current_bytes n v d l e i = make_derive n v d l e i "bytes" ∧
    make_total_operations n v d l e i =
      make_derive n v d l e i "total_operations" ∧
    base_of (make_queue_length n v d l e i) =
      (if n.isEmpty then none else some .GAUGE) ∧
    base_of (make_total_bytes n v d e l i) =
      (if n.isEmpty then none else some .DERIVE) ∧
    base_of (make_current_bytes n v d l e i) =
      (if n.isEmpty then none else some .DERIVE) ∧
    base_of (make_total_operations n v d l e i) =
      (if n.isEmpty then none else some .DERIVE) := by
  refine ⟨rfl, rfl, rfl, rfl, ?_, ?_, ?_, ?_⟩ <;>
    by_cases h : n.isEmpty <;>
      simp [make_queue_length, make_total_bytes, make_current_bytes,
        make_total_operations, make_gauge, make_derive,
        metric_definition_impl.make, base_of, h]

/-- Claim C8: each base factory, with every optional argument left at its
default, produces a definition whose enabled flag is true, whose instance
id is the ambient current-shard identifier, and whose flavor string is
the base type canonical name: gauge, counter, derive, absolute. -/
theorem base_factory_defaults (cur n : String) (v : value_source) :
    enabled_of (make_gauge_dflt cur n v) =
      (if n.isEmpty then none else some true) ∧
    id_of (make_gauge_dflt cur n v) =
      (if n.isEmpty then none else some cur) ∧
    flavor_of (make_gauge_dflt cur n v) =
      (if n.isEmpty then none else some "gauge") ∧
    enabled_of (make_counter_dflt cur n v) =
      (if n.isEmpty then none else some true) ∧
    id_of (make_counter_dflt cur n v) =
      (if n.isEmpty then none else some cur) ∧
    flavor_of (make_counter_dflt cur n v) =
      (if n.isEmpty then none else some "counter") ∧
    enabled_of (make_derive_dflt cur n v) =
      (if n.isEmpty then none else some true) ∧
    id_of (make_derive_dflt cur n v) =
      (if n.isEmpty then none else some cur) ∧
    flavor_of (make_derive_dflt cur n v) =
      (if n.isEmpty then none else some "derive") ∧
    enabled_of (make_absolute_dflt cur n v) =
      (if n.isEmpty then none else some true) ∧
    id_of (make_absolute_dflt cur n v) =
      (if n.isEmpty then none else some cur) ∧
    flavor_of (make_absolute_dflt cur n v) =
      (if n.isEmpty then none else some "absolute") := by
  by_cases h : n.isEmpty <;>
    simp [make_gauge_dflt, make_counter_dflt, make_derive_dflt,
      make_absolute_dflt, make_gauge, make_counter, make_derive,
      make_absolute, metric_definition_impl.make, enabled_of, id_of,
      flavor_of, h]

/-- Claim C10: make_current_bytes forwards to make_derive with the fixed
flavor string bytes, not current_bytes, while make_total_bytes,
make_total_operations and make_queue_length forward their own names as
the flavor; make_total_bytes takes its enabled flag in the parameter
slot before its label list, so its forwarding swaps the two arguments
back into the base factory order used by every other factory. -/
theorem current_bytes_flavor_and_total_bytes_arg_order (n : String)
    (v : value_source) (d : description) (e : Bool)
    (l : List label_instance) (i : String) :
    make_current_bytes n v d l e i = make_derive n v d l e i "bytes" ∧
    flavor_of (make_current_bytes n v d l e i) =
      (if n.isEmpty then none else some "bytes") ∧
    make_total_bytes n v d e l i = make_derive n v d l e i "total_bytes" ∧
    flavor_of (make_total_bytes n v d e l i) =
      (if n.isEmpty then none else some "total_bytes") ∧
    make_total_operations n v d l e i =
      make_derive n v d l e i "total_operations" ∧
    flavor_of (make_total_operations n v d l e i) =
      (if n.isEmpty then none else some "total_operations") ∧
    make_queue_length n v d l e i = make_gauge n v d l e i "queue_length" ∧
    flavor_of (make_queue_length n v d l e i) =
      (if n.isEmpty then none else some "queue_length") := by
  refine ⟨rfl, ?_, rfl, ?_, rfl, ?_, rfl, ?_⟩ <;>
    by_cases h : n.isEmpty <;>
      simp [make_queue_length, make_total_bytes, make_current_bytes,
        make_total_operations, make_gauge, make_derive,
        metric_definition_impl.make, flavor_of, h]

end SeastarMetrics
